import Mathlib

/-!
Verification of the personal-finance-manager ledger core.

The definitions below are a shallow embedding of `src/personal-finance-manager.py`:
the persistence codec (`decode_row` / `encode_row` / `load_rows` /
`save_trace`, lines 25-73), the aggregator (`calculate_balance`,
`calculate_summary`, lines 513-548), the input validator (`validate_input`,
lines 359-380) and the filter engine (`apply_filters`, lines 595-625).

Python machine values are modelled as follows: strings are `String`
(operated on through their character lists); currency amounts are `ℚ`,
with Python float arithmetic modelled by rounding every operation's exact
result to the nearest IEEE-754 double (`roundDouble`, `fadd`, `fsub`); and
the fallible Python conversions `float(...)` and
`datetime.strptime(..., '%Y-%m-%d')` are `Option`-valued functions.
-/

attribute [local semireducible] Rat.add Rat.mul Rat.inv Rat.sub Rat.ofScientific

set_option maxRecDepth 100000

namespace PFM

/-- A decimal digit character, `'0'`..`'9'` (`c.isdigit()` on ASCII input). -/
def isDigitC (c : Char) : Prop := 48 ≤ c.toNat ∧ c.toNat ≤ 57

instance (c : Char) : Decidable (isDigitC c) := by unfold isDigitC; infer_instance

/-- Numeric value of a digit character. -/
def charVal (c : Char) : Nat := c.toNat - 48

/-- The digit character for a value `0`..`9` (values ≥ 9 clamp to `'9'`;
only ever applied to values below 10). -/
def digitChar : Nat → Char
  | 0 => '0' | 1 => '1' | 2 => '2' | 3 => '3' | 4 => '4'
  | 5 => '5' | 6 => '6' | 7 => '7' | 8 => '8' | _ => '9'

/-- Value of a big-endian digit string, as computed by reading digits left to
right (the semantics of Python's integer-literal part of `float`). -/
def charsToNat (cs : List Char) : Nat := cs.foldl (fun a c => 10 * a + charVal c) 0

/-- Parse a non-empty all-digit character list; `none` otherwise. -/
def digitsToNat? (cs : List Char) : Option Nat :=
  if cs ≠ [] ∧ ∀ c ∈ cs, isDigitC c then some (charsToNat cs) else none

/-- Big-endian decimal digits of `n` (fuel-indexed so that it reduces in the
kernel; the fuel `n + 1` always suffices). -/
def natToCharsAux : Nat → Nat → List Char
  | 0, _ => []
  | fuel + 1, n =>
    if n < 10 then [digitChar n]
    else natToCharsAux fuel (n / 10) ++ [digitChar (n % 10)]

/-- Big-endian decimal digits of `n`, e.g. `natToChars 120 = ['1','2','0']`. -/
def natToChars (n : Nat) : List Char := natToCharsAux (n + 1) n

/-- The whitespace characters stripped by Python's `str.strip()` and ignored
around the argument of `float(...)` (ASCII fragment). -/
def isPySpace (c : Char) : Prop :=
  c = ' ' ∨ c = '\t' ∨ c = '\n' ∨ c = '\r' ∨ c.toNat = 11 ∨ c.toNat = 12

instance (c : Char) : Decidable (isPySpace c) := by unfold isPySpace; infer_instance

/-- Drop leading and trailing whitespace from a character list
(Python `str.strip()`). -/
def pyStripChars (l : List Char) : List Char :=
  ((l.dropWhile (fun c => decide (isPySpace c))).reverse.dropWhile
      (fun c => decide (isPySpace c))).reverse

/-- Python `str.strip()`. -/
def pyStrip (s : String) : String := String.mk (pyStripChars s.data)

/-- Python `str.lower()` (ASCII fragment, which is all the app compares). -/
def pyLower (s : String) : String := String.mk (s.data.map Char.toLower)

/-- Value of a float mantissa split at its first `'.'`: the first argument is
the integer part, the second the remainder starting with the dot (empty when
there is no dot).  A second `'.'` fails the digit test of the fractional
part, as `float` rejects it. -/
def mantissaSplit? (intp : List Char) : List Char → Option ℚ
  | [] => (digitsToNat? intp).map (fun n => (n : ℚ))
  | _ :: fracp =>
    if (intp ≠ [] ∨ fracp ≠ []) ∧ (∀ c ∈ intp, isDigitC c) ∧ (∀ c ∈ fracp, isDigitC c)
    then some ((charsToNat intp : ℚ) + (charsToNat fracp : ℚ) / (10 : ℚ) ^ fracp.length)
    else none

/-- Mantissa of a Python float literal: `digits`, `digits.`, `.digits` or
`digits.digits`. -/
def mantissa? (cs : List Char) : Option ℚ :=
  mantissaSplit? (cs.takeWhile (fun c => !decide (c = '.')))
    (cs.dropWhile (fun c => !decide (c = '.')))

/-- Exponent of a Python float literal: optional sign followed by digits. -/
def signedDigits? (cs : List Char) : Option Int :=
  match cs with
  | [] => none
  | c :: rest =>
    if c = '+' then (digitsToNat? rest).map Int.ofNat
    else if c = '-' then (digitsToNat? rest).map (fun n => -(n : Int))
    else (digitsToNat? cs).map Int.ofNat

/-- Combination of a float literal with the remainder starting at its first
`e`/`E` (empty when there is no exponent marker, in which case the whole
literal is the mantissa). -/
def expSplit? (cs : List Char) : List Char → Option ℚ
  | [] => mantissa? cs
  | _ :: ex =>
    (mantissa? (cs.takeWhile (fun c => !(c == 'e' || c == 'E')))).bind
      (fun m => (signedDigits? ex).map (fun e => m * (10 : ℚ) ^ e))

/-- Unsigned Python float literal: mantissa with optional `e`/`E` exponent. -/
def unsignedFloat? (cs : List Char) : Option ℚ :=
  expSplit? cs (cs.dropWhile (fun c => !(c == 'e' || c == 'E')))

/-- Sign handling of a Python float literal: optional leading `+` or `-`
before the unsigned literal. -/
def pyFloatSigned? : List Char → Option ℚ
  | [] => none
  | c :: rest =>
    if c = '+' then unsignedFloat? rest
    else if c = '-' then (unsignedFloat? rest).map Neg.neg
    else unsignedFloat? (c :: rest)

/-- Python `float(s)` on decimal literals: surrounding whitespace is ignored,
then an optional sign, a mantissa and an optional exponent (the `inf`/`nan`
words and `_` digit separators, which a ledger file never contains, are not
modelled).  The result is the exact rational the literal denotes; the
further rounding `float()` performs to the nearest double (see
`roundDouble`) is not applied here, since the codec claims compare only
parse success, sign, and the round trip of short decimals, on which the
exact and rounded readings agree. -/
def py_float? (s : String) : Option ℚ :=
  pyFloatSigned? (pyStripChars s.data)

/-- Fractional digits printed for the value `m / 100`: trailing zeros are
dropped, but at least one fractional digit is kept. -/
def pyFracDigits (m : Nat) : List Char :=
  if m % 100 = 0 then ['0']
  else if m % 10 = 0 then [digitChar (m / 10 % 10)]
  else if m % 100 < 10 then ['0', digitChar (m % 10)]
  else [digitChar (m / 10 % 10), digitChar (m % 10)]

/-- Python `str()` of a float holding a currency value with at most two
fractional decimal digits (`q * 100` an integer).  `str` prints the shortest
decimal string that round-trips through the float, which for such a value is
the value itself with trailing fractional zeros removed but at least one
fractional digit kept: `str(1000.0) = "1000.0"`, `str(12.5) = "12.5"`,
`str(12.34) = "12.34"`, `str(12.05) = "12.05"`. -/
def pyFloatStr (q : ℚ) : String :=
  String.mk ((if (q * 100).num < 0 then ['-'] else [])
    ++ natToChars ((q * 100).num.natAbs / 100) ++ '.'
        :: pyFracDigits (q * 100).num.natAbs)

/-- Number of binary digits of `n` (fuel-indexed so it reduces in the
kernel; 256 bits cover every magnitude the ledger model produces). -/
def bitLen : Nat → Nat → Nat
  | 0, _ => 0
  | fuel + 1, n => if n = 0 then 0 else bitLen fuel (n / 2) + 1

/-- Floor of the base-2 logarithm of a positive rational, from the bit
lengths of numerator and denominator. -/
def floorLog2 (q : ℚ) : Int :=
  let k : Int := (bitLen 256 q.num.natAbs : Int) - (bitLen 256 q.den : Int)
  if q < (2 : ℚ) ^ k then k - 1 else k

/-- Rounding of a positive rational to the nearest IEEE-754 double value
(53-bit significand, round to nearest, ties to even).  The exponent range
is not bounded: the subnormal and overflow thresholds lie far outside
currency magnitudes. -/
def roundPos (q : ℚ) : ℚ :=
  let e : Int := floorLog2 q - 52
  let scaled : ℚ := q * (2 : ℚ) ^ (-e)
  let n : Int := scaled.num / (scaled.den : Int)
  let r : ℚ := scaled - (n : ℚ)
  let n' : Int :=
    if r > 1 / 2 then n + 1
    else if r < 1 / 2 then n
    else if n % 2 = 0 then n else n + 1
  (n' : ℚ) * (2 : ℚ) ^ e

/-- Rounding of a rational to the nearest IEEE-754 double: the value every
Python float operation returns.  On a value that is already a double
(including every integer of moderate size) it is the identity. -/
def roundDouble (q : ℚ) : ℚ :=
  if q = 0 then 0
  else if q < 0 then -roundPos (-q) else roundPos q

/-- Python float addition: the exact sum rounded to the nearest double. -/
def fadd (a b : ℚ) : ℚ := roundDouble (a + b)

/-- Python float subtraction: the exact difference rounded to the nearest
double. -/
def fsub (a b : ℚ) : ℚ := roundDouble (a - b)

/-- The `Transaction` value of the source (line 11): seven fields, with the
amount held as the exact decimal value (`float` in the source). -/
structure Transaction where
  date : String
  transaction_type : String
  category : String
  reason : String
  amount : ℚ
  notes : String
  mode : String
deriving DecidableEq

/-- Header row written and expected by the codec (lines 30, 43). -/
def csv_header : List String :=
  ["Date", "Type", "Category", "Reason", "Amount", "Notes", "Mode"]

/-- The field sequence `save_transactions_to_csv` writes for one transaction
(line 32): each attribute in the fixed column order, the amount going through
Python `str()`. -/
def encode_row (t : Transaction) : List String :=
  [t.date, t.transaction_type, t.category, t.reason, pyFloatStr t.amount,
   t.notes, t.mode]

/-- Validity of a transaction per the spec's data model (§3): the amount is
strictly positive with 2-fractional-digit fixed-point semantics, and the
type and mode are the respective enums. -/
def ValidTransaction (t : Transaction) : Prop :=
  0 < t.amount ∧ (t.amount * 100).den = 1
    ∧ (t.transaction_type = "Credit" ∨ t.transaction_type = "Debit")
    ∧ (t.mode = "Online" ∨ t.mode = "Cash")

/-- Disambiguation of the trailing `*parts` group into `(notes, mode)`
(lines 50-63): more than one trailing field takes the last as mode and joins
the rest; exactly one is the mode when it is literally `"Online"` or
`"Cash"`, the notes otherwise; the joined notes are whitespace-stripped. -/
def decode_trailing (parts : List String) : String × String :=
  let pair :=
    if parts.length > 1 then
      (parts.dropLast, parts.getLastD "Online")
    else if parts.length = 1 then
      if parts.headD "" = "Online" ∨ parts.headD "" = "Cash" then
        (([] : List String), parts.headD "")
      else (parts, "Online")
    else (([] : List String), "Online")
  (pyStrip (String.join pair.1), pair.2)

/-- Outcome of one data row in `load_transactions_from_csv`: decoded, skipped
with an error dialog (`ValueError` / generic exception, lines 65-68), or an
empty row skipped silently by the `if row:` guard (line 47). -/
inductive RowResult
  | ok (t : Transaction)
  | err
  | blank
deriving DecidableEq

/-- Decoding of one data row (lines 47-64): five fixed leading fields, the
amount through `float(...)`, and the trailing group through the
notes/mode heuristic.  Fewer than five fields fails the unpacking and an
unparseable amount raises `ValueError`; both show an error and skip the row. -/
def decode_row (row : List String) : RowResult :=
  match row with
  | [] => .blank
  | date :: transaction_type :: category :: reason :: amount :: parts =>
    match py_float? amount with
    | none => .err
    | some a =>
      let nm := decode_trailing parts
      .ok ⟨date, transaction_type, category, reason, a, nm.1, nm.2⟩
  | _ => .err

/-- The transactions produced from the data rows of a file (lines 46-68):
each decoded row appended in order, error and blank rows skipped, loading
continuing with the remaining rows. -/
def load_rows (rows : List (List String)) : List Transaction :=
  rows.filterMap (fun r =>
    match decode_row r with
    | .ok t => some t
    | _ => none)

/-- File-system effects of `save_transactions_to_csv` (lines 27-32):
`open(filename, 'w')` truncates the destination in place, then each row is
written directly to it.  There is no temporary file and no rename. -/
inductive FsOp
  | openTrunc
  | writeRow (r : List String)
deriving DecidableEq

/-- The ordered file-system operations `save_transactions_to_csv` performs
on the destination (lines 28-32). -/
def save_trace (transactions : List Transaction) : List FsOp :=
  .openTrunc :: .writeRow csv_header :: transactions.map (fun t => .writeRow (encode_row t))

/-- Destination contents after running a prefix of the save on a file that
previously held `file`: truncation empties it, each write appends a row.
Interrupting the save partway is running only a prefix of the trace. -/
def runOps (file : List (List String)) : List FsOp → List (List String)
  | [] => file
  | .openTrunc :: rest => runOps [] rest
  | .writeRow r :: rest => runOps (file ++ [r]) rest

/-- Day count of a month, as `datetime.date` validates it. -/
def daysInMonth (y m : Nat) : Nat :=
  if m = 2 then
    if y % 4 = 0 ∧ (y % 100 ≠ 0 ∨ y % 400 = 0) then 29 else 28
  else if m = 4 ∨ m = 6 ∨ m = 9 ∨ m = 11 then 30
  else 31

/-- Split a character list at every `'-'`. -/
def splitOnDash : List Char → List (List Char)
  | [] => [[]]
  | c :: rest =>
    if c = '-' then [] :: splitOnDash rest
    else
      match splitOnDash rest with
      | g :: gs => (c :: g) :: gs
      | [] => [[c]]

/-- `datetime.strptime(s, '%Y-%m-%d')` followed by `.date()`, encoded as
`y * 10000 + m * 100 + d` (a strictly monotone encoding of calendar order,
which is all the filter compares).  `%Y` matches exactly four digits, `%m`
and `%d` match one or two digits in range (two-digit `00` is rejected), the
whole string must be consumed, and `datetime` then checks the day against
the month length and the year against `MINYEAR = 1`. -/
def strptime_Ymd (s : String) : Option Nat :=
  match splitOnDash s.data with
  | [ys, ms, ds] =>
    if (ys.length = 4 ∧ ∀ c ∈ ys, isDigitC c)
        ∧ ((ms.length = 1 ∨ ms.length = 2) ∧ (∀ c ∈ ms, isDigitC c))
        ∧ ((ds.length = 1 ∨ ds.length = 2) ∧ (∀ c ∈ ds, isDigitC c)) then
      let y := charsToNat ys
      let m := charsToNat ms
      let d := charsToNat ds
      if 1 ≤ y ∧ 1 ≤ m ∧ m ≤ 12 ∧ 1 ≤ d ∧ d ≤ daysInMonth y m then
        some (y * 10000 + m * 100 + d)
      else none
    else none
  | _ => none

/-- The filter entries read by `apply_filters` (lines 597-602). -/
structure FilterCriteria where
  start_date_str : String
  end_date_str : String
  filter_type : String
  filter_mode : String
  filter_category : String
  search_term : String
deriving DecidableEq

/-- Encoded date of a transaction, defaulting to `0` when unparseable (only
ever used under the guard that every date parsed). -/
def dateNum (t : Transaction) : Nat := (strptime_Ymd t.date).getD 0

/-- The date-range stage of `apply_filters` given the parse results of the
two bounds.  The `try` block (lines 606-611) parses both bounds and then
each transaction date inside one comprehension; if any of those raises
`ValueError` the assignment to `filtered` never happens (the list is left
whole) and a warning dialog is shown.  Otherwise the list is filtered to
the inclusive range.  The returned flag records whether the warning was
shown. -/
def date_stage_core (l : List Transaction) :
    Option Nat → Option Nat → List Transaction × Bool
  | some s, some e =>
    if l.all (fun t => (strptime_Ymd t.date).isSome) then
      (l.filter (fun t => decide (s ≤ dateNum t) && decide (dateNum t ≤ e)), false)
    else (l, true)
  | _, _ => (l, true)

/-- The date-range stage of `apply_filters` (lines 606-611). -/
def date_stage (c : FilterCriteria) (l : List Transaction) :
    List Transaction × Bool :=
  date_stage_core l (strptime_Ymd c.start_date_str) (strptime_Ymd c.end_date_str)

/-- Does `hay` start with `needle`? -/
def startsWith : List Char → List Char → Bool
  | [], _ => true
  | _ :: _, [] => false
  | a :: as, b :: bs => (a == b) && startsWith as bs

/-- Python's `needle in hay` on strings: contiguous substring test. -/
def containsSub (needle : List Char) : List Char → Bool
  | [] => needle.isEmpty
  | c :: rest => startsWith needle (c :: rest) || containsSub needle rest

/-- The free-text search test (line 620): case-insensitive substring of
reason, category or notes. -/
def search_hit (term : String) (t : Transaction) : Bool :=
  containsSub term.data (pyLower t.reason).data
    || containsSub term.data (pyLower t.category).data
    || containsSub term.data (pyLower t.notes).data

/-- The four non-date stages of `apply_filters` (lines 613-620) in source
order (type, mode, category, search), each skipped at its `"All"` /
empty-search default; the search term is lowercased on entry (line 601). -/
def apply_other_filters (c : FilterCriteria) (l : List Transaction) :
    List Transaction :=
  let filtered :=
    if c.filter_type ≠ "All" then
      l.filter (fun t => decide (t.transaction_type = c.filter_type))
    else l
  let filtered :=
    if c.filter_mode ≠ "All" then
      filtered.filter (fun t => decide (t.mode = c.filter_mode))
    else filtered
  let filtered :=
    if c.filter_category ≠ "All" then
      filtered.filter (fun t => decide (t.category = c.filter_category))
    else filtered
  if pyLower c.search_term ≠ "" then
    filtered.filter (search_hit (pyLower c.search_term))
  else filtered

/-- `apply_filters` (lines 595-625) restricted to its pure content: the
filtered list it stores and whether the date warning was shown. -/
def apply_filters (transactions : List Transaction) (c : FilterCriteria) :
    List Transaction × Bool :=
  (apply_other_filters c (date_stage c transactions).1,
    (date_stage c transactions).2)

/-- The conjunction of the four non-date constraints on one transaction,
each vacuous at its default value. -/
def passes_other_filters (c : FilterCriteria) (t : Transaction) : Bool :=
  (decide (c.filter_type = "All") || decide (t.transaction_type = c.filter_type))
    && (decide (c.filter_mode = "All") || decide (t.mode = c.filter_mode))
    && (decide (c.filter_category = "All") || decide (t.category = c.filter_category))
    && (decide (pyLower c.search_term = "") || search_hit (pyLower c.search_term) t)

/-- `calculate_balance` (lines 513-525): optionally restrict to one mode
(`if mode:` is false for `None` and for the empty string), then add credit
amounts and subtract everything else.  The accumulations `balance +=` and
`balance -=` are Python float operations, modelled by `fadd` / `fsub`
(each intermediate sum rounded to the nearest IEEE-754 double). -/
def calculate_balance (transactions : List Transaction) (mode : Option String) : ℚ :=
  let ts :=
    match mode with
    | some m => if m = "" then transactions else transactions.filter (fun t => decide (t.mode = m))
    | none => transactions
  ts.foldl (fun balance t =>
    if t.transaction_type = "Credit" then fadd balance t.amount
    else fsub balance t.amount) 0

/-- The six accumulators of `calculate_summary` (lines 531-533). -/
structure Summary where
  total_credits : ℚ
  total_debits : ℚ
  online_credits : ℚ
  online_debits : ℚ
  cash_credits : ℚ
  cash_debits : ℚ
deriving DecidableEq

/-- One loop iteration of `calculate_summary` (lines 535-547): credits and
debits split on `transaction_type = "Credit"`, each then split on
`mode = "Online"` with every other mode counted as cash.  The `+=`
accumulations are Python float additions, modelled by `fadd`. -/
def summaryStep (s : Summary) (t : Transaction) : Summary :=
  if t.transaction_type = "Credit" then
    if t.mode = "Online" then
      { s with total_credits := fadd s.total_credits t.amount,
               online_credits := fadd s.online_credits t.amount }
    else
      { s with total_credits := fadd s.total_credits t.amount,
               cash_credits := fadd s.cash_credits t.amount }
  else
    if t.mode = "Online" then
      { s with total_debits := fadd s.total_debits t.amount,
               online_debits := fadd s.online_debits t.amount }
    else
      { s with total_debits := fadd s.total_debits t.amount,
               cash_debits := fadd s.cash_debits t.amount }

/-- `calculate_summary` (lines 527-548). -/
def calculate_summary (transactions : List Transaction) : Summary :=
  transactions.foldl summaryStep ⟨0, 0, 0, 0, 0, 0⟩

/-- `validate_input` (lines 359-380): required fields non-empty, category in
the registry, date well-formed, then the amount check — a parseable
non-positive amount returns `False`, but the `except ValueError` branch for
a non-numeric amount shows an error dialog and then returns `True`
(line 379). -/
def validate_input (categories : List String) (date_str amount_str reason_str category_str : String) : Bool :=
  if date_str = "" ∨ amount_str = "" ∨ reason_str = "" ∨ category_str = "" then false
  else if category_str ∉ categories then false
  else if (strptime_Ymd date_str).isNone then false
  else
    match py_float? amount_str with
    | some amount => if amount ≤ 0 then false else true
    | none => true

/-! ### Helper lemmas about digit strings and whitespace -/

theorem charVal_digitChar {d : Nat} (h : d < 10) : charVal (digitChar d) = d := by
  interval_cases d <;> decide

theorem isDigitC_digitChar {d : Nat} (h : d < 10) : isDigitC (digitChar d) := by
  interval_cases d <;> decide

theorem charsToNat_append_singleton (l : List Char) (c : Char) :
    charsToNat (l ++ [c]) = 10 * charsToNat l + charVal c := by
  simp [charsToNat, List.foldl_append]

theorem natToCharsAux_spec :
    ∀ fuel n, n < fuel →
      natToCharsAux fuel n ≠ []
        ∧ (∀ c ∈ natToCharsAux fuel n, isDigitC c)
        ∧ charsToNat (natToCharsAux fuel n) = n := by
  intro fuel
  induction fuel with
  | zero => intro n h; omega
  | succ fuel ih =>
    intro n h
    by_cases h10 : n < 10
    · refine ⟨by simp [natToCharsAux, h10], ?_, ?_⟩
      · simp only [natToCharsAux, if_pos h10, List.mem_singleton]
        rintro c rfl
        exact isDigitC_digitChar h10
      · simp [natToCharsAux, if_pos h10, charsToNat, charVal_digitChar h10]
    · have hdiv : n / 10 < fuel := by
        have := Nat.div_lt_self (by omega : 0 < n) (by omega : 1 < 10)
        omega
      obtain ⟨hne, hdig, hval⟩ := ih (n / 10) hdiv
      refine ⟨by simp [natToCharsAux, if_neg h10], ?_, ?_⟩
      · simp only [natToCharsAux, if_neg h10, List.mem_append, List.mem_singleton]
        rintro c (hc | rfl)
        · exact hdig c hc
        · exact isDigitC_digitChar (by omega)
      · rw [natToCharsAux, if_neg h10, charsToNat_append_singleton, hval,
          charVal_digitChar (by omega)]
        omega

theorem natToChars_ne_nil (n : Nat) : natToChars n ≠ [] :=
  (natToCharsAux_spec (n + 1) n (by omega)).1

theorem natToChars_digits (n : Nat) : ∀ c ∈ natToChars n, isDigitC c :=
  (natToCharsAux_spec (n + 1) n (by omega)).2.1

theorem charsToNat_natToChars (n : Nat) : charsToNat (natToChars n) = n :=
  (natToCharsAux_spec (n + 1) n (by omega)).2.2

theorem digit_ne_dot {c : Char} (h : isDigitC c) : ¬ c = '.' := by
  rintro rfl; exact absurd h (by decide)

theorem digit_ne_plus {c : Char} (h : isDigitC c) : ¬ c = '+' := by
  rintro rfl; exact absurd h (by decide)

theorem digit_ne_minus {c : Char} (h : isDigitC c) : ¬ c = '-' := by
  rintro rfl; exact absurd h (by decide)

theorem digit_not_e {c : Char} (h : isDigitC c) : (c == 'e' || c == 'E') = false := by
  have h1 : ¬ c = 'e' := by rintro rfl; exact absurd h (by decide)
  have h2 : ¬ c = 'E' := by rintro rfl; exact absurd h (by decide)
  simp [h1, h2]

theorem digit_not_space {c : Char} (h : isDigitC c) : ¬ isPySpace c := by
  intro hs
  obtain ⟨h1, h2⟩ := h
  rcases hs with rfl | rfl | rfl | rfl | h11 | h12
  · exact absurd h1 (by decide)
  · exact absurd h1 (by decide)
  · exact absurd h1 (by decide)
  · exact absurd h1 (by decide)
  · omega
  · omega

theorem takeWhile_all {p : Char → Bool} :
    ∀ {l : List Char}, (∀ c ∈ l, p c = true) → l.takeWhile p = l := by
  intro l
  induction l with
  | nil => intro; rfl
  | cons a l ih =>
    intro h
    rw [List.takeWhile_cons, h a (by simp), if_pos rfl,
      ih (fun c hc => h c (by simp [hc]))]

theorem dropWhile_all {p : Char → Bool} :
    ∀ {l : List Char}, (∀ c ∈ l, p c = true) → l.dropWhile p = [] := by
  intro l
  induction l with
  | nil => intro; rfl
  | cons a l ih =>
    intro h
    rw [List.dropWhile_cons_of_pos (h a (by simp)), ih (fun c hc => h c (by simp [hc]))]

theorem takeWhile_append_all {p : Char → Bool} {l₁ : List Char} (l₂ : List Char)
    (h : ∀ c ∈ l₁, p c = true) :
    (l₁ ++ l₂).takeWhile p = l₁ ++ l₂.takeWhile p := by
  induction l₁ with
  | nil => simp
  | cons a l ih =>
    rw [List.cons_append, List.takeWhile_cons, h a (by simp), if_pos rfl,
      ih (fun c hc => h c (by simp [hc])), List.cons_append]

theorem dropWhile_append_all {p : Char → Bool} {l₁ : List Char} (l₂ : List Char)
    (h : ∀ c ∈ l₁, p c = true) :
    (l₁ ++ l₂).dropWhile p = l₂.dropWhile p := by
  induction l₁ with
  | nil => simp
  | cons a l ih =>
    rw [List.cons_append, List.dropWhile_cons_of_pos (h a (by simp)),
      ih (fun c hc => h c (by simp [hc]))]

theorem dropWhile_id_of_none {p : Char → Bool} :
    ∀ {l : List Char}, (∀ c ∈ l, p c = false) → l.dropWhile p = l := by
  intro l
  induction l with
  | nil => intro; rfl
  | cons a l ih =>
    intro h
    rw [List.dropWhile_cons_of_neg (by simp [h a (by simp)])]

theorem pyStripChars_id {l : List Char} (h : ∀ c ∈ l, ¬ isPySpace c) :
    pyStripChars l = l := by
  have h1 : l.dropWhile (fun c => decide (isPySpace c)) = l :=
    dropWhile_id_of_none (by intro c hc; simpa using h c hc)
  unfold pyStripChars
  rw [h1, dropWhile_id_of_none
      (by intro c hc; simpa using h c (List.mem_reverse.mp hc)),
    List.reverse_reverse]

/-! ### `py_float?` recovers the value printed by `pyFloatStr` -/

theorem charsToNat_one (c : Char) : charsToNat [c] = charVal c := by
  simp [charsToNat]

theorem charsToNat_two (c₁ c₂ : Char) :
    charsToNat [c₁, c₂] = 10 * charVal c₁ + charVal c₂ := by
  simp [charsToNat]

theorem mantissa?_digits_dot {intp fracp : List Char}
    (hi : ∀ c ∈ intp, isDigitC c) (hf : ∀ c ∈ fracp, isDigitC c) (hne : fracp ≠ []) :
    mantissa? (intp ++ '.' :: fracp)
      = some ((charsToNat intp : ℚ)
          + (charsToNat fracp : ℚ) / (10 : ℚ) ^ fracp.length) := by
  have hp : ∀ c ∈ intp, (fun c => !decide (c = '.')) c = true := by
    intro c hc; simpa using digit_ne_dot (hi c hc)
  have ht : (intp ++ '.' :: fracp).takeWhile (fun c => !decide (c = '.')) = intp := by
    rw [takeWhile_append_all _ hp, List.takeWhile_cons_of_neg (by simp)]
    simp
  have hd : (intp ++ '.' :: fracp).dropWhile (fun c => !decide (c = '.')) = '.' :: fracp := by
    rw [dropWhile_append_all _ hp, List.dropWhile_cons_of_neg (by simp)]
  unfold mantissa?
  rw [ht, hd]
  simp only [mantissaSplit?]
  rw [if_pos ⟨Or.inr hne, hi, hf⟩]

theorem unsignedFloat?_no_e {cs : List Char}
    (h : ∀ c ∈ cs, (c == 'e' || c == 'E') = false) :
    unsignedFloat? cs = mantissa? cs := by
  unfold unsignedFloat?
  rw [dropWhile_all (by intro c hc; simp [h c hc])]
  rfl

theorem py_float?_digits_dot (intp fracp : List Char)
    (hi : ∀ c ∈ intp, isDigitC c) (hine : intp ≠ [])
    (hf : ∀ c ∈ fracp, isDigitC c) (hne : fracp ≠ []) :
    py_float? (String.mk (intp ++ '.' :: fracp))
      = some ((charsToNat intp : ℚ)
          + (charsToNat fracp : ℚ) / (10 : ℚ) ^ fracp.length) := by
  have hmem : ∀ c ∈ intp ++ '.' :: fracp, isDigitC c ∨ c = '.' := by
    intro c hc
    rcases List.mem_append.mp hc with hc | hc
    · exact Or.inl (hi c hc)
    · rcases List.mem_cons.mp hc with rfl | hc
      · exact Or.inr rfl
      · exact Or.inl (hf c hc)
  have hstrip : pyStripChars (intp ++ '.' :: fracp) = intp ++ '.' :: fracp := by
    refine pyStripChars_id ?_
    intro c hc
    rcases hmem c hc with hdg | rfl
    · exact digit_not_space hdg
    · decide
  have hnoe : ∀ c ∈ intp ++ '.' :: fracp, (c == 'e' || c == 'E') = false := by
    intro c hc
    rcases hmem c hc with hdg | rfl
    · exact digit_not_e hdg
    · decide
  obtain ⟨c0, intp', rfl⟩ := List.exists_cons_of_ne_nil hine
  have hc0 : isDigitC c0 := hi c0 (by simp)
  unfold py_float?
  have hdata : (String.mk ((c0 :: intp') ++ '.' :: fracp)).data
      = (c0 :: intp') ++ '.' :: fracp := rfl
  rw [hdata, hstrip]
  simp only [List.cons_append, pyFloatSigned?]
  rw [if_neg (digit_ne_plus hc0), if_neg (digit_ne_minus hc0)]
  rw [← List.cons_append, unsignedFloat?_no_e hnoe, mantissa?_digits_dot hi hf hne]

theorem val_cancel10 {q : ℚ} {m f : Nat}
    (hm : (m : ℚ) = q * 100)
    (hnat : m / 100 * 100 + f * 10 = m) :
    ((m / 100 : ℕ) : ℚ) + (f : ℚ) / 10 = q := by
  have key : ((m / 100 : ℕ) : ℚ) * 100 + (f : ℚ) * 10 = (m : ℚ) := by
    exact_mod_cast congrArg (fun k : ℕ => (k : ℚ)) hnat
  linear_combination key / 100 + hm / 100

theorem val_cancel100 {q : ℚ} {m f : Nat}
    (hm : (m : ℚ) = q * 100)
    (hnat : m / 100 * 100 + f = m) :
    ((m / 100 : ℕ) : ℚ) + (f : ℚ) / 100 = q := by
  have key : ((m / 100 : ℕ) : ℚ) * 100 + (f : ℚ) = (m : ℚ) := by
    exact_mod_cast congrArg (fun k : ℕ => (k : ℚ)) hnat
  linear_combination key / 100 + hm / 100

theorem py_float?_pyFloatStr (q : ℚ) (hq : 0 < q) (hden : (q * 100).den = 1) :
    py_float? (pyFloatStr q) = some q := by
  have hn : 0 < (q * 100).num := Rat.num_pos.mpr (by positivity)
  have hqn : ((q * 100).num : ℚ) = q * 100 := by
    have h := Rat.num_div_den (q * 100)
    rw [hden] at h
    simpa using h
  have hm : ((q * 100).num.natAbs : ℚ) = q * 100 := by
    have habs : ((q * 100).num.natAbs : ℤ) = (q * 100).num :=
      Int.natAbs_of_nonneg hn.le
    rw [← hqn, ← habs]
    exact (Int.cast_natCast _).symm
  unfold pyFloatStr
  rw [if_neg (by omega : ¬ (q * 100).num < 0)]
  generalize hM : (q * 100).num.natAbs = m at hm ⊢
  have hi := natToChars_digits (m / 100)
  have hine := natToChars_ne_nil (m / 100)
  simp only [List.nil_append]
  unfold pyFracDigits
  by_cases h1 : m % 100 = 0
  · rw [if_pos h1, py_float?_digits_dot _ _ hi hine (by decide) (by decide)]
    congr 1
    have h0 : charsToNat ['0'] = 0 := by decide
    rw [charsToNat_natToChars, h0]
    simp only [List.length_singleton, pow_one, Nat.cast_zero, zero_div, add_zero]
    have key : ((m / 100 : ℕ) : ℚ) * 100 = (m : ℚ) := by
      exact_mod_cast congrArg (fun k : ℕ => (k : ℚ)) (by omega : m / 100 * 100 = m)
    linear_combination key / 100 + hm / 100
  · rw [if_neg h1]
    by_cases h2 : m % 10 = 0
    · rw [if_pos h2,
        py_float?_digits_dot _ _ hi hine
          (by intro c hc
              rw [List.mem_singleton] at hc
              subst hc
              exact isDigitC_digitChar (by omega))
          (by simp)]
      congr 1
      rw [charsToNat_natToChars, charsToNat_one, charVal_digitChar (by omega)]
      simp only [List.length_singleton, pow_one]
      exact val_cancel10 hm (by omega)
    · rw [if_neg h2]
      by_cases h3 : m % 100 < 10
      · rw [if_pos h3,
          py_float?_digits_dot _ _ hi hine
            (by intro c hc
                rcases List.mem_cons.mp hc with rfl | hc
                · decide
                · rw [List.mem_singleton] at hc
                  subst hc
                  exact isDigitC_digitChar (by omega))
            (by simp)]
        congr 1
        rw [charsToNat_natToChars, charsToNat_two, charVal_digitChar (by omega)]
        have hv0 : charVal '0' = 0 := by decide
        rw [hv0]
        have hlen : (['0', digitChar (m % 10)] : List Char).length = 2 := rfl
        rw [hlen, (by norm_num : ((10 : ℚ)) ^ (2 : ℕ) = 100)]
        exact val_cancel100 hm (by omega)
      · rw [if_neg h3,
          py_float?_digits_dot _ _ hi hine
            (by intro c hc
                rcases List.mem_cons.mp hc with rfl | hc
                · exact isDigitC_digitChar (by omega)
                · rw [List.mem_singleton] at hc
                  subst hc
                  exact isDigitC_digitChar (by omega))
            (by simp)]
        congr 1
        rw [charsToNat_natToChars, charsToNat_two,
          charVal_digitChar (by omega : m / 10 % 10 < 10),
          charVal_digitChar (by omega : m % 10 < 10)]
        have hlen : ([digitChar (m / 10 % 10), digitChar (m % 10)] : List Char).length = 2 := rfl
        rw [hlen, (by norm_num : ((10 : ℚ)) ^ (2 : ℕ) = 100)]
        exact val_cancel100 hm (by omega)

/-! ### Codec lemmas -/

theorem String_join_nil : String.join [] = "" := rfl

theorem String_join_singleton (s : String) : String.join [s] = s := by
  show "" ++ s = s
  cases s
  rfl

theorem pyStrip_empty : pyStrip "" = "" := by decide

theorem decode_trailing_nil : decode_trailing [] = ("", "Online") := rfl

theorem decode_trailing_single (p : String) :
    decode_trailing [p]
      = if p = "Online" ∨ p = "Cash" then ("", p) else (pyStrip p, "Online") := by
  by_cases h : p = "Online" ∨ p = "Cash"
  · rw [if_pos h]
    simp [decode_trailing, h, String_join_nil, pyStrip_empty]
  · rw [if_neg h]
    simp [decode_trailing, h, String_join_singleton]

theorem decode_trailing_multi (ps : List String) (p : String) (h : ps ≠ []) :
    decode_trailing (ps ++ [p]) = (pyStrip (String.join ps), p) := by
  have hlen : (ps ++ [p]).length > 1 := by
    rcases ps with _ | ⟨a, t⟩
    · exact absurd rfl h
    · simp
  simp only [decode_trailing, if_pos hlen, List.dropLast_concat,
    List.getLastD_concat]

theorem decode_row_cons (d ty cat rsn amt : String) (parts : List String) (q : ℚ)
    (h : py_float? amt = some q) :
    decode_row (d :: ty :: cat :: rsn :: amt :: parts)
      = .ok ⟨d, ty, cat, rsn, q, (decode_trailing parts).1, (decode_trailing parts).2⟩ := by
  simp only [decode_row, h]

/-! ### Claim C1 — trailing-group disambiguation -/

/-- C1 (amended): for a data row with the five leading fields and a trailing
group whose amount parses, decoding applies the spec's disambiguation with
the reconstructed notes additionally stripped of surrounding whitespace
(Python `str.strip()`, line 63): 0 trailing fields give notes `""` and mode
`"Online"`; one trailing field is the mode if it is exactly `"Online"` or
`"Cash"` and the (stripped) notes otherwise; with two or more, the last is
the mode and the stripped separator-free concatenation of the rest is the
notes. -/
theorem decode_row_trailing_disambiguation
    (d ty cat rsn amt : String) (q : ℚ) (h : py_float? amt = some q) :
    decode_row [d, ty, cat, rsn, amt] = .ok ⟨d, ty, cat, rsn, q, "", "Online"⟩
    ∧ (∀ p, (p = "Online" ∨ p = "Cash") →
        decode_row [d, ty, cat, rsn, amt, p] = .ok ⟨d, ty, cat, rsn, q, "", p⟩)
    ∧ (∀ p, ¬(p = "Online" ∨ p = "Cash") →
        decode_row [d, ty, cat, rsn, amt, p]
          = .ok ⟨d, ty, cat, rsn, q, pyStrip p, "Online"⟩)
    ∧ (∀ ps p, ps ≠ [] →
        decode_row (d :: ty :: cat :: rsn :: amt :: (ps ++ [p]))
          = .ok ⟨d, ty, cat, rsn, q, pyStrip (String.join ps), p⟩) := by
  refine ⟨?_, ?_, ?_, ?_⟩
  · rw [show ([d, ty, cat, rsn, amt] : List String)
        = d :: ty :: cat :: rsn :: amt :: [] from rfl,
      decode_row_cons _ _ _ _ _ _ _ h, decode_trailing_nil]
  · intro p hp
    rw [show ([d, ty, cat, rsn, amt, p] : List String)
        = d :: ty :: cat :: rsn :: amt :: [p] from rfl,
      decode_row_cons _ _ _ _ _ _ _ h, decode_trailing_single, if_pos hp]
  · intro p hp
    rw [show ([d, ty, cat, rsn, amt, p] : List String)
        = d :: ty :: cat :: rsn :: amt :: [p] from rfl,
      decode_row_cons _ _ _ _ _ _ _ h, decode_trailing_single, if_neg hp]
  · intro ps p hps
    rw [decode_row_cons _ _ _ _ _ _ _ h, decode_trailing_multi _ _ hps]

/-- C1 witness: the amended rule evaluated on the spec's own legacy-decode
example row, through `decode_row_trailing_disambiguation`. -/
theorem decode_row_trailing_disambiguation_witness :
    decode_row ("2024-01-01" :: "Credit" :: "Salary" :: "Pay" :: "1000.0"
        :: (["Bought snacks"] ++ ["Cash"]))
      = .ok ⟨"2024-01-01", "Credit", "Salary", "Pay", 1000,
          pyStrip (String.join ["Bought snacks"]), "Cash"⟩ :=
  (decode_row_trailing_disambiguation "2024-01-01" "Credit" "Salary" "Pay"
    "1000.0" 1000 (by decide)).2.2.2 ["Bought snacks"] "Cash" (by decide)

/-- C1 counterexample: the claim as stated says the notes of a row with two
trailing fields are the raw concatenation of the leading trailing fields
(here `" a "`), but the code strips them to `"a"`. -/
theorem decode_row_notes_not_raw_concat :
    decode_row ["2024-01-01", "Credit", "Salary", "Pay", "1000", " a ", "Cash"]
      = .ok ⟨"2024-01-01", "Credit", "Salary", "Pay", 1000, "a", "Cash"⟩
    ∧ ("a" : String) ≠ " a " := by
  exact ⟨by decide, by decide⟩

/-! ### Claim C2 — encode/decode round trip -/

/-- C2 (amended): for a valid transaction whose notes contain no
delimiter-significant characters and equal their own whitespace-strip,
decoding the encoded row restores the transaction exactly; the encoded row
is in the fixed column order with the amount serialized by Python `str()`
(shortest float representation, not padded to two fractional digits). -/
theorem encode_decode_round_trip (t : Transaction)
    (hv : ValidTransaction t) (hn : pyStrip t.notes = t.notes) :
    decode_row (encode_row t) = .ok t := by
  obtain ⟨hpos, hden, -, -⟩ := hv
  have hamt : py_float? (pyFloatStr t.amount) = some t.amount :=
    py_float?_pyFloatStr _ hpos hden
  show decode_row (t.date :: t.transaction_type :: t.category :: t.reason
      :: pyFloatStr t.amount :: [t.notes, t.mode]) = .ok t
  rw [decode_row_cons _ _ _ _ _ _ _ hamt,
    show ([t.notes, t.mode] : List String) = [t.notes] ++ [t.mode] from rfl,
    decode_trailing_multi [t.notes] t.mode (by simp),
    String_join_singleton, hn]

/-- C2 witness: the round trip evaluated on a concrete valid transaction,
through `encode_decode_round_trip`. -/
theorem encode_decode_round_trip_witness :
    decode_row (encode_row
        ⟨"2024-01-02", "Debit", "Food", "Lunch", 1234 / 100, "ok note", "Cash"⟩)
      = .ok ⟨"2024-01-02", "Debit", "Food", "Lunch", 1234 / 100, "ok note", "Cash"⟩ :=
  encode_decode_round_trip _
    ⟨by norm_num, by decide, Or.inr rfl, Or.inr rfl⟩ (by decide)

/-- C2 counterexample: the claim as stated fails twice on the code.  The
amount of a valid transaction is written as `"1000.0"`, not with two
fractional digits; and a valid transaction whose notes are `" a "` (no
delimiter-significant characters, only padding spaces) comes back with
notes `"a"`, so `decodeRow (encodeRow t) ≠ t`. -/
theorem round_trip_fails_on_padded_notes :
    (encode_row ⟨"2024-01-01", "Credit", "Salary", "Pay", 1000, " a ", "Online"⟩).getD 4 ""
        = "1000.0"
    ∧ decode_row (encode_row ⟨"2024-01-01", "Credit", "Salary", "Pay", 1000, " a ", "Online"⟩)
        = .ok ⟨"2024-01-01", "Credit", "Salary", "Pay", 1000, "a", "Online"⟩
    ∧ Transaction.mk "2024-01-01" "Credit" "Salary" "Pay" 1000 "a" "Online"
        ≠ Transaction.mk "2024-01-01" "Credit" "Salary" "Pay" 1000 " a " "Online" := by
  exact ⟨by decide, by decide, by decide⟩

/-! ### Claim C3 — save is not atomic -/

/-- C3: the code's save truncates the destination in place
(`open(filename, 'w')`, line 28) and then writes row by row; there is no
temporary file and no rename.  Interrupting the save after one or two
file-system operations leaves the destination empty or header-only — a
state that is neither the previous on-disk contents nor the complete new
file, contradicting the claimed atomicity. -/
theorem save_overwrite_in_place_clobbers_old_state :
    runOps [csv_header, ["2024-01-01", "Credit", "Salary", "Pay", "1000.0", "", "Online"]]
        ((save_trace [⟨"2024-01-02", "Debit", "Food", "Lunch", 25 / 2, "", "Cash"⟩]).take 1)
      = []
    ∧ runOps [csv_header, ["2024-01-01", "Credit", "Salary", "Pay", "1000.0", "", "Online"]]
        ((save_trace [⟨"2024-01-02", "Debit", "Food", "Lunch", 25 / 2, "", "Cash"⟩]).take 2)
      = [csv_header]
    ∧ ([csv_header] : List (List String))
        ≠ [csv_header, ["2024-01-01", "Credit", "Salary", "Pay", "1000.0", "", "Online"]]
    ∧ [csv_header]
        ≠ runOps [csv_header, ["2024-01-01", "Credit", "Salary", "Pay", "1000.0", "", "Online"]]
            (save_trace [⟨"2024-01-02", "Debit", "Food", "Lunch", 25 / 2, "", "Cash"⟩]) := by
  exact ⟨by decide, by decide, by decide, by decide⟩

/-! ### Claim C4 — rows with unparseable amounts -/

/-- C4 (amended): a data row whose amount field does not parse as a decimal
produces a per-row error and is skipped, and loading continues with the
remaining rows.  (The positivity half of the original claim is refuted by
`negative_amount_row_loaded`: the code never checks the sign of a parsed
amount on load.) -/
theorem bad_amount_row_skipped_load_continues
    (d ty cat rsn amt : String) (parts : List String)
    (pre post : List (List String))
    (h : py_float? amt = none) :
    decode_row (d :: ty :: cat :: rsn :: amt :: parts) = .err
    ∧ load_rows (pre ++ (d :: ty :: cat :: rsn :: amt :: parts) :: post)
        = load_rows (pre ++ post) := by
  have hdec : decode_row (d :: ty :: cat :: rsn :: amt :: parts) = .err := by
    simp only [decode_row, h]
  refine ⟨hdec, ?_⟩
  simp only [load_rows, List.filterMap_append, List.filterMap_cons, hdec]

/-- C4 witness: a malformed-amount row between two good rows is skipped
while both neighbours load, through `bad_amount_row_skipped_load_continues`. -/
theorem bad_amount_row_skipped_load_continues_witness :
    decode_row ["2024-01-01", "Credit", "Food", "x", "abc"] = .err
    ∧ load_rows ([["2024-01-05", "Credit", "Salary", "Pay", "10"]]
          ++ ["2024-01-01", "Credit", "Food", "x", "abc"]
            :: [["2024-01-07", "Debit", "Food", "Snack", "2.5"]])
        = load_rows ([["2024-01-05", "Credit", "Salary", "Pay", "10"]]
            ++ [["2024-01-07", "Debit", "Food", "Snack", "2.5"]]) :=
  bad_amount_row_skipped_load_continues "2024-01-01" "Credit" "Food" "x" "abc"
    [] _ _ (by decide)

/-- C4 counterexample: a row whose amount parses to a negative value is not
rejected — it loads into a transaction with amount `-5`, so the loaded
ledger does not satisfy `amount > 0`. -/
theorem negative_amount_row_loaded :
    decode_row ["2024-01-01", "Debit", "Food", "x", "-5"]
      = .ok ⟨"2024-01-01", "Debit", "Food", "x", -5, "", "Online"⟩
    ∧ load_rows [["2024-01-01", "Debit", "Food", "x", "-5"]]
        = [⟨"2024-01-01", "Debit", "Food", "x", -5, "", "Online"⟩]
    ∧ ((-5 : ℚ) < 0) := by
  exact ⟨by decide, by decide, by norm_num⟩

/-! ### Claim C9 — input validation accepts a non-numeric amount -/

/-- C9: `validate_input` is claimed to reject every submission whose amount
string is non-numeric or non-positive.  The non-positive path does return
failure, but the `except ValueError` branch for a non-numeric amount
returns `True` (line 379), so validation succeeds on `"abc"` and
`add_transaction` then proceeds to `float(amount_str)`, which raises. -/
theorem validate_input_accepts_nonnumeric_amount :
    py_float? "abc" = none
    ∧ validate_input ["Food"] "2024-01-01" "abc" "Lunch" "Food" = true
    ∧ validate_input ["Food"] "2024-01-01" "-5" "Lunch" "Food" = false := by
  exact ⟨by decide, by decide, by decide⟩

/-! ### Claims C6 and C7 — the aggregator's float sums break the algebra -/

/-- C6: the mode-partition equality is the spec's stated intent (decimal
fixed-point sums, spec sections 4.4 and 8), but `calculate_summary`
accumulates IEEE-754 doubles with no rounding discipline.  For credits
`0.1` (Online), `0.2` (Cash), `0.3` (Cash) — each amount the double that
`float()` produces — the code returns `total_credits` `0.6000000000000001`
(`= 5404319552844596 / 2 ^ 53`) and `online_credits` `0.1`,
`cash_credits` `0.5`, whose sum is `0.6` — so
`total_credits ≠ online_credits + cash_credits` on the program. -/
theorem summary_float_mode_partition_fails :
    calculate_summary
        [⟨"2024-01-01", "Credit", "Salary", "p", roundDouble (1 / 10), "", "Online"⟩,
          ⟨"2024-01-02", "Credit", "Salary", "p", roundDouble (2 / 10), "", "Cash"⟩,
          ⟨"2024-01-03", "Credit", "Salary", "p", roundDouble (3 / 10), "", "Cash"⟩]
      = ⟨5404319552844596 / 2 ^ 53, 0, roundDouble (1 / 10), 0, 1 / 2, 0⟩
    ∧ (5404319552844596 / 2 ^ 53 : ℚ) ≠ roundDouble (1 / 10) + 1 / 2 := by
  exact ⟨by decide, by decide⟩

/-- C7: balance = totalCredits − totalDebits is the spec's stated intent
(spec sections 4.4 and 8), but both sides are accumulated as IEEE-754
doubles in different orders.  For credit `0.1`, debit `0.2`, credit `0.3`
the balance loop returns `0.19999999999999998`
(`= 7205759403792793 / 2 ^ 55`) while the summary's
`total_credits − total_debits` is `0.2` (`= 7205759403792794 / 2 ^ 55`), so
the equality fails on the program. -/
theorem balance_float_not_credits_sub_debits :
    calculate_balance
        [⟨"2024-01-01", "Credit", "Salary", "p", roundDouble (1 / 10), "", "Online"⟩,
          ⟨"2024-01-02", "Debit", "Food", "p", roundDouble (2 / 10), "", "Online"⟩,
          ⟨"2024-01-03", "Credit", "Salary", "p", roundDouble (3 / 10), "", "Online"⟩]
        none
      = 7205759403792793 / 2 ^ 55
    ∧ (calculate_summary
          [⟨"2024-01-01", "Credit", "Salary", "p", roundDouble (1 / 10), "", "Online"⟩,
            ⟨"2024-01-02", "Debit", "Food", "p", roundDouble (2 / 10), "", "Online"⟩,
            ⟨"2024-01-03", "Credit", "Salary", "p", roundDouble (3 / 10), "", "Online"⟩]).total_credits
        - (calculate_summary
            [⟨"2024-01-01", "Credit", "Salary", "p", roundDouble (1 / 10), "", "Online"⟩,
              ⟨"2024-01-02", "Debit", "Food", "p", roundDouble (2 / 10), "", "Online"⟩,
              ⟨"2024-01-03", "Credit", "Salary", "p", roundDouble (3 / 10), "", "Online"⟩]).total_debits
        = 7205759403792794 / 2 ^ 55
    ∧ (7205759403792793 / 2 ^ 55 : ℚ) ≠ 7205759403792794 / 2 ^ 55 := by
  exact ⟨by decide, by decide, by decide⟩

/-! ### Claims C8 and C10 — the filter's date-range stage -/

theorem filter_comp {α : Type} (p q : α → Bool) (l : List α) :
    (l.filter p).filter q = l.filter (fun a => p a && q a) := by
  induction l with
  | nil => rfl
  | cons a l ih =>
    by_cases hp : p a
    · by_cases hq : q a <;> simp [List.filter_cons, hp, hq, ih]
    · simp [List.filter_cons, hp, ih]

theorem apply_other_filters_eq (c : FilterCriteria) (l : List Transaction) :
    apply_other_filters c l = l.filter (passes_other_filters c) := by
  unfold apply_other_filters passes_other_filters
  by_cases h1 : c.filter_type = "All" <;>
    by_cases h2 : c.filter_mode = "All" <;>
      by_cases h3 : c.filter_category = "All" <;>
        by_cases h4 : pyLower c.search_term = "" <;>
          simp [h1, h2, h3, h4, filter_comp, Bool.and_comm, Bool.and_left_comm,
            Bool.and_assoc]

theorem date_stage_parsed (c : FilterCriteria) (l : List Transaction) (s e : Nat)
    (hs : strptime_Ymd c.start_date_str = some s)
    (he : strptime_Ymd c.end_date_str = some e)
    (hall : ∀ t ∈ l, (strptime_Ymd t.date).isSome) :
    date_stage c l
      = (l.filter (fun t => decide (s ≤ dateNum t) && decide (dateNum t ≤ e)),
          false) := by
  unfold date_stage
  rw [hs, he]
  simp only [date_stage_core]
  rw [if_pos (List.all_eq_true.mpr (by intro t ht; simpa using hall t ht))]

/-- C8 (amended): the date-range constraint is inclusive on both ends
provided every transaction date parses — with parseable bounds and all
dates parseable, the output is exactly the transactions whose date lies in
`[start, end]` and which pass the other constraints, with no warning.  If
either bound fails to parse, the date constraint is ignored entirely, the
other constraints still apply, and the warning is signalled.  (The original
claim's unconditional exclusion is refuted by
`out_of_range_tx_kept_when_other_date_malformed`: one malformed transaction
date drops the whole range constraint, see C10.) -/
theorem apply_filters_date_range_inclusive :
    (∀ (ts : List Transaction) (c : FilterCriteria) (s e : Nat),
        strptime_Ymd c.start_date_str = some s →
        strptime_Ymd c.end_date_str = some e →
        s ≤ e →
        (∀ t ∈ ts, (strptime_Ymd t.date).isSome) →
        apply_filters ts c
          = (ts.filter (fun t =>
              (decide (s ≤ dateNum t) && decide (dateNum t ≤ e))
                && passes_other_filters c t), false))
    ∧ (∀ (ts : List Transaction) (c : FilterCriteria),
        strptime_Ymd c.start_date_str = none
          ∨ strptime_Ymd c.end_date_str = none →
        apply_filters ts c = (ts.filter (passes_other_filters c), true)) := by
  constructor
  · intro ts c s e hs he _ hall
    unfold apply_filters
    rw [date_stage_parsed c ts s e hs he hall]
    simp only []
    rw [apply_other_filters_eq, filter_comp]
  · intro ts c h
    have hd : date_stage c ts = (ts, true) := by
      unfold date_stage
      rcases h with h | h
      · rw [h]
        simp [date_stage_core]
      · rw [h]
        cases hstart : strptime_Ymd c.start_date_str <;> simp [date_stage_core]
    unfold apply_filters
    rw [hd]
    simp only []
    rw [apply_other_filters_eq]

/-- C8 witness: bounds `2024-01-01 ≤ 2024-01-31`, three parseable-dated
transactions (one on each boundary, one strictly before the range), through
`apply_filters_date_range_inclusive`; and one call with an unparseable
bound. -/
theorem apply_filters_date_range_inclusive_witness :
    apply_filters
        [⟨"2024-01-01", "Credit", "c", "r", 10, "", "Online"⟩,
          ⟨"2024-01-31", "Debit", "c", "r", 4, "", "Cash"⟩,
          ⟨"2023-06-15", "Credit", "c", "r", 4, "", "Cash"⟩]
        ⟨"2024-01-01", "2024-01-31", "All", "All", "All", ""⟩
      = ([⟨"2024-01-01", "Credit", "c", "r", 10, "", "Online"⟩,
          ⟨"2024-01-31", "Debit", "c", "r", 4, "", "Cash"⟩,
          ⟨"2023-06-15", "Credit", "c", "r", 4, "", "Cash"⟩].filter
            (fun t =>
              (decide (20240101 ≤ dateNum t) && decide (dateNum t ≤ 20240131))
                && passes_other_filters
                    ⟨"2024-01-01", "2024-01-31", "All", "All", "All", ""⟩ t),
          false) :=
  apply_filters_date_range_inclusive.1 _ _ 20240101 20240131
    (by decide) (by decide) (by decide) (by decide)

/-- C8 counterexample: with parseable bounds, a list containing one
transaction with a malformed date keeps a transaction dated strictly before
`start` (the claim as stated says it is excluded). -/
theorem out_of_range_tx_kept_when_other_date_malformed :
    strptime_Ymd "2024-01-01" = some 20240101
    ∧ strptime_Ymd "2023-06-15" = some 20230615
    ∧ 20230615 < 20240101
    ∧ (⟨"2023-06-15", "Credit", "Food", "r", 4, "", "Cash"⟩ : Transaction)
        ∈ (apply_filters
            [⟨"bad", "Credit", "Food", "r", 10, "", "Online"⟩,
              ⟨"2023-06-15", "Credit", "Food", "r", 4, "", "Cash"⟩]
            ⟨"2024-01-01", "2024-01-31", "All", "All", "All", ""⟩).1 := by
  exact ⟨by decide, by decide, by decide, by decide⟩

/-- C10: when both bounds parse but some transaction date does not, the
whole date-range constraint is dropped for the call — the output is the
input filtered only by the non-date constraints (every transaction passes
the date constraint, including ones outside the range) and the warning is
signalled. -/
theorem bad_tx_date_drops_date_constraint
    (ts : List Transaction) (c : FilterCriteria) (s e : Nat)
    (hs : strptime_Ymd c.start_date_str = some s)
    (he : strptime_Ymd c.end_date_str = some e)
    (hbad : ∃ t ∈ ts, strptime_Ymd t.date = none) :
    apply_filters ts c = (ts.filter (passes_other_filters c), true) := by
  have hall : ¬ ts.all (fun t => (strptime_Ymd t.date).isSome) = true := by
    rw [List.all_eq_true]
    push_neg
    obtain ⟨t, ht, hnone⟩ := hbad
    exact ⟨t, ht, by simp [hnone]⟩
  have hd : date_stage c ts = (ts, true) := by
    unfold date_stage
    rw [hs, he]
    simp only [date_stage_core]
    rw [if_neg hall]
  unfold apply_filters
  rw [hd]
  simp only []
  rw [apply_other_filters_eq]

/-- C10 witness: a two-element list whose first transaction has the
unparseable date `"bad"`; with parseable bounds the whole list passes the
date stage (the second transaction lies outside the range) and the warning
is raised, through `bad_tx_date_drops_date_constraint`. -/
theorem bad_tx_date_drops_date_constraint_witness :
    apply_filters
        [⟨"bad", "Credit", "Food", "r", 10, "", "Online"⟩,
          ⟨"2023-06-15", "Credit", "Food", "r", 4, "", "Cash"⟩]
        ⟨"2024-01-01", "2024-01-31", "All", "All", "All", ""⟩
      = ([⟨"bad", "Credit", "Food", "r", 10, "", "Online"⟩,
          ⟨"2023-06-15", "Credit", "Food", "r", 4, "", "Cash"⟩].filter
            (passes_other_filters
              ⟨"2024-01-01", "2024-01-31", "All", "All", "All", ""⟩),
          true) :=
  bad_tx_date_drops_date_constraint _ _ 20240101 20240131
    (by decide) (by decide) (by decide)

end PFM
